import Mathlib

/-!
Shallow embedding of `src/main.go` (package `chatserver`): a bounded chat
message log stored under a single memcache key, with a JSON write endpoint
(`postMessages`), an HTML read endpoint (`getMessages`) and a method
dispatcher (`handleSnippets`).  External collaborators (the memcache client
and `encoding/json`) are modelled as explicit inputs: the cache is a
versioned optional snapshot, fetch/store failures are injected by an
environment record, and JSON decoding is an arbitrary function parameter.
-/

namespace ChatServer

/-- `type Message struct { Name string; Body string }` (src/main.go:35-38). -/
structure Message where
  name : String
  body : String
deriving DecidableEq, Repr, Inhabited

/-- `maxContentSizeInBytes = 256` (src/main.go:32). -/
def maxContentSizeInBytes : Nat := 256

/-- `const maxMessageNum = 50` (src/main.go:174). -/
def maxMessageNum : Nat := 50

/-- The hit-path append transformation of `postMessages` (src/main.go:173-177):
`messages = append(messages, message)` followed by truncation
`messages = messages[len(messages)-maxMessageNum:]` when the length exceeds
the capacity `n` (the code instantiates `n` with `maxMessageNum = 50`). -/
def appendTruncate (messages : List Message) (message : Message) (n : Nat) : List Message :=
  let ms := messages ++ [message]
  if ms.length > n then ms.drop (ms.length - n) else ms

/-- The full append transformation of `postMessages`: on a cache miss the code
stores `[]Message{message}` (src/main.go:160-163); on a hit it stores
`appendTruncate` of the fetched snapshot (src/main.go:173-177). -/
def boundedAppend : Option (List Message) → Message → Nat → List Message
  | none, incoming, _ => [incoming]
  | some messages, incoming, n => appendTruncate messages incoming n

/-- The last `n` elements of a list, in order: spec-side notion of
"truncated to keep only the last N elements". -/
def lastN (l : List Message) (n : Nat) : List Message :=
  (l.reverse.take n).reverse

/-- Specification-side definition, following the spec's words for
`BoundedLog.Append` (§4.1): Absent maps to `[incoming]`, otherwise
`current ++ [incoming]` truncated to keep only the last `n` elements (drop
from the front) when the length exceeds `n`.  Compared against the
source-side `boundedAppend` in the refinement claim. -/
def boundedAppendSpec : Option (List Message) → Message → Nat → List Message
  | none, incoming, _ => [incoming]
  | some cur, incoming, n =>
    let r := cur ++ [incoming]
    if r.length > n then lastN r n else r

/-- The cache entry under the `"messages"` key: the stored snapshot (if the
key is present) and a version counter standing for the memcache CAS token;
every successful store bumps the version. -/
structure CacheState where
  value : Option (List Message)
  ver : Nat
deriving DecidableEq, Repr

/-- A successful store of `v` into the cache. -/
def setValue (st : CacheState) (v : List Message) : CacheState :=
  ⟨some v, st.ver + 1⟩

/-- A concurrent writer's successful store happening between this request's
fetch and its own store attempt (`none` = no interference). -/
def applyInterfere (st : CacheState) : Option (List Message) → CacheState
  | none => st
  | some w => setValue st w

/-- One memcache operation issued by a handler, in order. -/
inductive CacheOp where
  | fetch
  | setStore (msgs : List Message)
  | casStore (msgs : List Message)
deriving DecidableEq, Repr

/-- The distinct terminal branches of `postMessages`; each writes a distinct
response in the Go code. -/
inductive PostOutcome where
  | notFound
  | badBodyRead
  | tooBig
  | decodeFailed
  | fetchInternalError
  | setInternalError
  | storeFailed
  | created
deriving DecidableEq, Repr

/-- The HTTP status code each `postMessages` branch reports
(src/main.go:128, 135, 141, 148, 157, 166, 182, 169/186). -/
def postStatus : PostOutcome → Nat
  | .notFound => 404
  | .badBodyRead => 400
  | .tooBig => 400
  | .decodeFailed => 400
  | .fetchInternalError => 500
  | .setInternalError => 500
  | .storeFailed => 400
  | .created => 201

/-- Environment of one write request: whether the memcache fetch fails (with
an error other than a miss), whether the store operation fails, and an
optional interfering concurrent write landing between fetch and store. -/
structure PostEnv where
  fetchErr : Bool
  storeErr : Bool
  interfere : Option (List Message)
deriving DecidableEq, Repr

/-- Result of one write request: terminal branch, the memcache operations
issued, and the final cache state. -/
structure PostResult where
  outcome : PostOutcome
  ops : List CacheOp
  final : CacheState
deriving DecidableEq, Repr

/-- `postMessages` (src/main.go:126-187).  `decode` stands for
`json.Unmarshal` into `Message`; `body = none` models a request-body read
error.  The CAS store succeeds exactly when no error is injected and the
version observed at fetch time is still current; the Go code maps every
`CompareAndSwap` error, conflict or not, to `http.StatusBadRequest`
(src/main.go:180-184), and the miss-path `Set` error to 500
(src/main.go:164-168). -/
def postMessages (decode : List Nat → Option Message) (path : String)
    (body : Option (List Nat)) (st : CacheState) (env : PostEnv) : PostResult :=
  if path ≠ "/messages" then ⟨.notFound, [], st⟩ else
  match body with
  | none => ⟨.badBodyRead, [], st⟩
  | some reqBody =>
    if reqBody.length > maxContentSizeInBytes then ⟨.tooBig, [], st⟩ else
    match decode reqBody with
    | none => ⟨.decodeFailed, [], st⟩
    | some message =>
      if env.fetchErr then ⟨.fetchInternalError, [.fetch], st⟩ else
      match st.value with
      | none =>
        let st1 := applyInterfere st env.interfere
        if env.storeErr then ⟨.setInternalError, [.fetch, .setStore [message]], st1⟩
        else ⟨.created, [.fetch, .setStore [message]], setValue st1 [message]⟩
      | some messages =>
        let newMessages := appendTruncate messages message maxMessageNum
        let st1 := applyInterfere st env.interfere
        if env.storeErr then ⟨.storeFailed, [.fetch, .casStore newMessages], st1⟩
        else if st1.ver = st.ver then
          ⟨.created, [.fetch, .casStore newMessages], setValue st1 newMessages⟩
        else ⟨.storeFailed, [.fetch, .casStore newMessages], st1⟩

/-- The distinct terminal branches of `getMessages`. -/
inductive GetOutcome where
  | devForm
  | internalError
  | page (shown : List Message)
  | notFound
deriving DecidableEq, Repr

/-- The HTTP status code each `getMessages` branch reports. -/
def getStatus : GetOutcome → Nat
  | .devForm => 200
  | .internalError => 500
  | .page _ => 200
  | .notFound => 404

/-- The display-order loop of `getMessages` (src/main.go:110-114):
`messagesToShow[len(messages)-i-1] = m` for each index `i`, so position `j`
of the shown list holds element `len - j - 1` of the stored list. -/
def reverseForShow (messages : List Message) : List Message :=
  (List.range messages.length).map
    (fun j => messages.getD (messages.length - j - 1) default)

/-- Result of one read request: terminal branch and memcache operations
issued (a read never changes the cache). -/
structure GetResult where
  outcome : GetOutcome
  ops : List CacheOp
deriving DecidableEq, Repr

/-- `getMessages` (src/main.go:91-124).  On the message paths a cache miss
leaves the initial empty `messages` slice in place (src/main.go:101-108),
any other fetch error is a 500, and the page renders the reversed list. -/
def getMessages (isDev : Bool) (path : String) (st : CacheState)
    (fetchErr : Bool) : GetResult :=
  if path = "/dev" then
    if isDev then ⟨.devForm, []⟩ else ⟨.notFound, []⟩
  else if path = "/" ∨ path = "/messages" ∨ path = "/messages.html" then
    if fetchErr then ⟨.internalError, [.fetch]⟩
    else
      match st.value with
      | none => ⟨.page (reverseForShow []), [.fetch]⟩
      | some messages => ⟨.page (reverseForShow messages), [.fetch]⟩
  else ⟨.notFound, []⟩

/-- Outcome of the dispatcher: read branch, write branch, or 405. -/
inductive Outcome where
  | fromGet (g : GetOutcome)
  | fromPost (p : PostOutcome)
  | methodNotAllowed
deriving DecidableEq, Repr

/-- HTTP status of a dispatcher outcome (`http.StatusMethodNotAllowed = 405`,
src/main.go:199). -/
def outcomeStatus : Outcome → Nat
  | .fromGet g => getStatus g
  | .fromPost p => postStatus p
  | .methodNotAllowed => 405

/-- Result of one dispatched request. -/
structure HandlerResult where
  outcome : Outcome
  ops : List CacheOp
  final : CacheState
deriving DecidableEq, Repr

/-- `handleSnippets` (src/main.go:189-202): HEAD and GET go to `getMessages`,
POST to `postMessages`, anything else is 405. -/
def handleSnippets (decode : List Nat → Option Message) (method : String)
    (isDev : Bool) (path : String) (body : Option (List Nat))
    (st : CacheState) (env : PostEnv) : HandlerResult :=
  if method = "HEAD" ∨ method = "GET" then
    let r := getMessages isDev path st env.fetchErr
    ⟨.fromGet r.outcome, r.ops, st⟩
  else if method = "POST" then
    let r := postMessages decode path body st env
    ⟨.fromPost r.outcome, r.ops, r.final⟩
  else ⟨.methodNotAllowed, [], st⟩

/-- Strictly sequential error-free appends starting from an absent snapshot:
each step fetches the current snapshot and stores `boundedAppend` of it, as
the error-free write path does. -/
def runAppends (n : Nat) (msgs : List Message) : Option (List Message) :=
  msgs.foldl (fun st m => some (boundedAppend st m n)) none

/-- The stored log as a list, a missing snapshot reading as empty. -/
def logOf : Option (List Message) → List Message
  | none => []
  | some l => l

/-- A store (set or CAS) among the issued cache operations marks that the
append transformation was computed and its result sent to the cache. -/
def storeAttempted (ops : List CacheOp) : Prop :=
  ∃ l, CacheOp.setStore l ∈ ops ∨ CacheOp.casStore l ∈ ops

instance (ops : List CacheOp) : Decidable (storeAttempted ops) := by
  unfold storeAttempted
  induction ops with
  | nil =>
    exact isFalse (by rintro ⟨l, h | h⟩ <;> simp at h)
  | cons op rest ih =>
    match op with
    | .fetch =>
      cases ih with
      | isTrue h =>
        exact isTrue (by obtain ⟨l, h | h⟩ := h <;> exact ⟨l, by simp [h]⟩)
      | isFalse h =>
        refine isFalse (fun ⟨l, hl⟩ => h ⟨l, ?_⟩)
        rcases hl with hl | hl <;> simp at hl <;> simp [hl]
    | .setStore v => exact isTrue ⟨v, Or.inl (by simp)⟩
    | .casStore v => exact isTrue ⟨v, Or.inr (by simp)⟩

theorem lastN_eq_drop (l : List Message) (n : Nat) :
    lastN l n = l.drop (l.length - n) := by
  simp [lastN, List.take_reverse]

theorem appendTruncate_eq_lastN (x : List Message) (m : Message) (n : Nat) :
    appendTruncate x m n = lastN (x ++ [m]) n := by
  rw [lastN_eq_drop]
  show (if (x ++ [m]).length > n then (x ++ [m]).drop ((x ++ [m]).length - n)
      else x ++ [m]) = _
  by_cases h : (x ++ [m]).length > n
  · rw [if_pos h]
  · rw [if_neg h]
    have h0 : (x ++ [m]).length - n = 0 := by omega
    rw [h0, List.drop_zero]

theorem lastN_concat (l : List Message) (m : Message) (k : Nat) :
    lastN (l ++ [m]) (k + 1) = lastN l k ++ [m] := by
  simp [lastN, List.reverse_append, List.take_succ_cons]

theorem lastN_lastN (l : List Message) (k : Nat) :
    lastN (lastN l (k + 1)) k = lastN l k := by
  unfold lastN
  rw [List.reverse_reverse, List.take_take]
  have hmin : min k (k + 1) = k := by omega
  rw [hmin]

theorem boundedAppend_eq_spec (cur : Option (List Message)) (inc : Message) (n : Nat) :
    boundedAppend cur inc n = boundedAppendSpec cur inc n := by
  cases cur with
  | none => rfl
  | some x =>
    show appendTruncate x inc n
        = if (x ++ [inc]).length > n then lastN (x ++ [inc]) n else x ++ [inc]
    rw [appendTruncate_eq_lastN]
    by_cases h : (x ++ [inc]).length > n
    · rw [if_pos h]
    · rw [if_neg h, lastN_eq_drop]
      have h0 : (x ++ [inc]).length - n = 0 := by omega
      rw [h0, List.drop_zero]

theorem runAppends_concat (n : Nat) (l : List Message) (a : Message) :
    runAppends n (l ++ [a]) = some (boundedAppend (runAppends n l) a n) := by
  unfold runAppends
  rw [List.foldl_append]
  rfl

theorem runAppends_eq_lastN_of_ne_nil (n : Nat) (hn : 1 ≤ n) :
    ∀ msgs : List Message, msgs ≠ [] → runAppends n msgs = some (lastN msgs n) := by
  obtain ⟨k, rfl⟩ : ∃ k, n = k + 1 := ⟨n - 1, by omega⟩
  intro msgs
  induction msgs using List.reverseRecOn with
  | nil => intro h; exact absurd rfl h
  | append_singleton l a ih =>
    intro _
    rw [runAppends_concat]
    rcases eq_or_ne l [] with hl | hl
    · subst hl
      simp [runAppends, boundedAppend, lastN]
    · rw [ih hl]
      show some (appendTruncate (lastN l (k + 1)) a (k + 1)) = _
      rw [appendTruncate_eq_lastN, lastN_concat, lastN_lastN, ← lastN_concat]

/-- C1: the append transformation of `postMessages` is exactly the spec's
`BoundedLog.Append`: a cache miss stores `[incoming]`, a hit stores
`current ++ [incoming]` truncated to the last `maxMessageNum = 50` elements
when longer; and the error-free write path stores exactly that value. -/
theorem append_transformation_exact (cur : Option (List Message)) (inc : Message)
    (decode : List Nat → Option Message) (b : List Nat) (st : CacheState)
    (hb : b.length ≤ maxContentSizeInBytes) (hd : decode b = some inc) :
    boundedAppend cur inc maxMessageNum = boundedAppendSpec cur inc maxMessageNum
    ∧ (postMessages decode "/messages" (some b) st ⟨false, false, none⟩).final.value
        = some (boundedAppend st.value inc maxMessageNum) := by
  refine ⟨boundedAppend_eq_spec cur inc maxMessageNum, ?_⟩
  cases hv : st.value with
  | none =>
    simp [postMessages, hd, hv, Nat.not_lt.mpr hb, applyInterfere, setValue, boundedAppend]
  | some messages =>
    simp [postMessages, hd, hv, Nat.not_lt.mpr hb, applyInterfere, setValue, boundedAppend]

theorem append_transformation_exact_witness :
    boundedAppend (some [⟨"x", "y"⟩]) ⟨"a", "hi"⟩ maxMessageNum
        = boundedAppendSpec (some [⟨"x", "y"⟩]) ⟨"a", "hi"⟩ maxMessageNum
    ∧ (postMessages (fun _ => some ⟨"a", "hi"⟩) "/messages" (some [1, 2, 3])
        ⟨some [⟨"x", "y"⟩], 0⟩ ⟨false, false, none⟩).final.value
        = some (boundedAppend (some [⟨"x", "y"⟩]) ⟨"a", "hi"⟩ maxMessageNum) :=
  append_transformation_exact (some [⟨"x", "y"⟩]) ⟨"a", "hi"⟩
    (fun _ => some ⟨"a", "hi"⟩) [1, 2, 3] ⟨some [⟨"x", "y"⟩], 0⟩ (by decide) rfl

/-- C2: starting from an absent log, any strictly sequential error-free
sequence of appends leaves the stored log equal to the last `n` appended
messages in append order, for every capacity `n ≥ 1`. -/
theorem sequential_appends_keep_lastN (n : Nat) (hn : 1 ≤ n) (msgs : List Message) :
    logOf (runAppends n msgs) = lastN msgs n
    ∧ lastN msgs n = msgs.drop (msgs.length - n) := by
  refine ⟨?_, lastN_eq_drop msgs n⟩
  rcases eq_or_ne msgs [] with h | h
  · subst h; simp [runAppends, logOf, lastN]
  · rw [runAppends_eq_lastN_of_ne_nil n hn msgs h]; rfl

theorem sequential_appends_keep_lastN_witness :
    1 ≤ 3
    ∧ (logOf (runAppends 3 [⟨"a", "hi"⟩, ⟨"b", "yo"⟩, ⟨"c", "hey"⟩, ⟨"d", "sup"⟩])
        = lastN [⟨"a", "hi"⟩, ⟨"b", "yo"⟩, ⟨"c", "hey"⟩, ⟨"d", "sup"⟩] 3
      ∧ lastN [⟨"a", "hi"⟩, ⟨"b", "yo"⟩, ⟨"c", "hey"⟩, ⟨"d", "sup"⟩] 3
        = [⟨"a", "hi"⟩, ⟨"b", "yo"⟩, ⟨"c", "hey"⟩,
            (⟨"d", "sup"⟩ : Message)].drop
            ([⟨"a", "hi"⟩, ⟨"b", "yo"⟩, ⟨"c", "hey"⟩, (⟨"d", "sup"⟩ : Message)].length - 3)) :=
  ⟨by decide, sequential_appends_keep_lastN 3 (by decide)
    [⟨"a", "hi"⟩, ⟨"b", "yo"⟩, ⟨"c", "hey"⟩, ⟨"d", "sup"⟩]⟩

/-- C3: every append leaves the stored snapshot with length at most
`maxMessageNum = 50` whatever the length of the snapshot read before the
append, and appending to a full snapshot of length 50 drops exactly the
oldest element and keeps the new message last. -/
theorem append_capacity_invariant (cur : Option (List Message))
    (full : List Message) (m : Message) :
    (boundedAppend cur m maxMessageNum).length ≤ maxMessageNum
    ∧ (full.length = maxMessageNum →
        boundedAppend (some full) m maxMessageNum = full.tail ++ [m]
        ∧ (boundedAppend (some full) m maxMessageNum).getLast? = some m) := by
  constructor
  · cases cur with
    | none => show 1 ≤ maxMessageNum; decide
    | some x =>
      show (if (x ++ [m]).length > maxMessageNum then
          (x ++ [m]).drop ((x ++ [m]).length - maxMessageNum) else x ++ [m]).length
          ≤ maxMessageNum
      by_cases h : (x ++ [m]).length > maxMessageNum
      · rw [if_pos h, List.length_drop]; omega
      · rw [if_neg h]; omega
  · intro hfull
    have hstep : boundedAppend (some full) m maxMessageNum = full.tail ++ [m] := by
      show (if (full ++ [m]).length > maxMessageNum then
          (full ++ [m]).drop ((full ++ [m]).length - maxMessageNum) else full ++ [m])
          = full.tail ++ [m]
      have hlen : (full ++ [m]).length = maxMessageNum + 1 := by
        rw [List.length_append, hfull]
        rfl
      have hone : 1 ≤ full.length := by rw [hfull]; decide
      rw [if_pos (by omega), hlen, Nat.add_sub_cancel_left,
        List.drop_append_of_le_length hone, List.drop_one]
    refine ⟨hstep, ?_⟩
    rw [hstep, List.getLast?_concat]

theorem append_capacity_invariant_witness :
    ((boundedAppend (some (List.replicate 50 ⟨"x", "y"⟩)) ⟨"a", "hi"⟩ maxMessageNum).length
        ≤ maxMessageNum
      ∧ boundedAppend (some (List.replicate 50 ⟨"x", "y"⟩)) ⟨"a", "hi"⟩ maxMessageNum
        = (List.replicate 50 (⟨"x", "y"⟩ : Message)).tail ++ [⟨"a", "hi"⟩]
      ∧ (boundedAppend (some (List.replicate 50 ⟨"x", "y"⟩)) ⟨"a", "hi"⟩
          maxMessageNum).getLast? = some ⟨"a", "hi"⟩) :=
  ⟨(append_capacity_invariant (some (List.replicate 50 ⟨"x", "y"⟩))
      (List.replicate 50 ⟨"x", "y"⟩) ⟨"a", "hi"⟩).1,
    (append_capacity_invariant (some (List.replicate 50 ⟨"x", "y"⟩))
      (List.replicate 50 ⟨"x", "y"⟩) ⟨"a", "hi"⟩).2 (by decide)⟩

/-- C4: a write whose raw payload exceeds `maxContentSizeInBytes = 256` is
rejected with the size-limit branch (HTTP 400) before any cache interaction:
no fetch, no store, cache state unchanged. -/
theorem oversize_rejected_before_cache (decode : List Nat → Option Message)
    (b : List Nat) (st : CacheState) (env : PostEnv)
    (hb : b.length > maxContentSizeInBytes) :
    (postMessages decode "/messages" (some b) st env).outcome = PostOutcome.tooBig
    ∧ postStatus (postMessages decode "/messages" (some b) st env).outcome = 400
    ∧ (postMessages decode "/messages" (some b) st env).ops = []
    ∧ (postMessages decode "/messages" (some b) st env).final = st := by
  have hr : postMessages decode "/messages" (some b) st env = ⟨.tooBig, [], st⟩ := by
    simp [postMessages, hb]
  rw [hr]
  exact ⟨rfl, rfl, rfl, rfl⟩

theorem oversize_rejected_before_cache_witness :
    (postMessages (fun _ => some ⟨"a", "hi"⟩) "/messages"
        (some (List.replicate 257 0)) ⟨none, 0⟩ ⟨false, false, none⟩).outcome
        = PostOutcome.tooBig
    ∧ postStatus (postMessages (fun _ => some ⟨"a", "hi"⟩) "/messages"
        (some (List.replicate 257 0)) ⟨none, 0⟩ ⟨false, false, none⟩).outcome = 400
    ∧ (postMessages (fun _ => some ⟨"a", "hi"⟩) "/messages"
        (some (List.replicate 257 0)) ⟨none, 0⟩ ⟨false, false, none⟩).ops = []
    ∧ (postMessages (fun _ => some ⟨"a", "hi"⟩) "/messages"
        (some (List.replicate 257 0)) ⟨none, 0⟩ ⟨false, false, none⟩).final = ⟨none, 0⟩ :=
  oversize_rejected_before_cache (fun _ => some ⟨"a", "hi"⟩)
    (List.replicate 257 0) ⟨none, 0⟩ ⟨false, false, none⟩
    (by rw [List.length_replicate]; decide)

/-- C6: on the read paths a cache miss renders the page with zero messages
(HTTP 200, not an error), while any other fetch error is surfaced as an
internal error (HTTP 500) and no message list is rendered. -/
theorem read_miss_empty_other_errors_internal (isDev : Bool) (path : String)
    (st : CacheState)
    (hpath : path = "/" ∨ path = "/messages" ∨ path = "/messages.html") :
    (st.value = none →
      getMessages isDev path st false = ⟨.page [], [.fetch]⟩
      ∧ getStatus (getMessages isDev path st false).outcome = 200)
    ∧ (getMessages isDev path st true).outcome = GetOutcome.internalError
    ∧ getStatus (getMessages isDev path st true).outcome = 500
    ∧ ∀ shown, (getMessages isDev path st true).outcome ≠ GetOutcome.page shown := by
  rcases hpath with h | h | h <;> subst h <;>
    exact ⟨fun hv => by simp [getMessages, hv, getStatus, reverseForShow],
      by simp [getMessages],
      by simp [getMessages, getStatus],
      fun shown => by simp [getMessages]⟩

theorem read_miss_empty_other_errors_internal_witness :
    (getMessages false "/messages" ⟨none, 0⟩ false = ⟨.page [], [.fetch]⟩)
    ∧ (getMessages false "/messages" ⟨none, 0⟩ true).outcome
        = GetOutcome.internalError :=
  ⟨((read_miss_empty_other_errors_internal false "/messages" ⟨none, 0⟩
      (Or.inr (Or.inl rfl))).1 rfl).1,
    (read_miss_empty_other_errors_internal false "/messages" ⟨none, 0⟩
      (Or.inr (Or.inl rfl))).2.1⟩

theorem reverseForShow_eq_reverse (l : List Message) :
    reverseForShow l = l.reverse := by
  apply List.ext_getElem
  · simp [reverseForShow]
  · intro i h1 h2
    have hlt : i < l.length := by
      simpa [reverseForShow] using h1
    have hidx : l.length - i - 1 = l.length - 1 - i := by omega
    simp only [reverseForShow, List.getElem_map, List.getElem_range,
      List.getElem_reverse]
    rw [hidx, List.getD_eq_getElem l default (by omega)]

/-- C9: the HTML read response renders exactly the reversal of the stored
sequence: same length, element `i` of the shown list is element
`L - 1 - i` of the stored list, and reading twice from the same state with
no intervening write yields identical output. -/
theorem read_renders_reverse (isDev : Bool) (path : String) (st : CacheState)
    (msgs : List Message)
    (hpath : path = "/" ∨ path = "/messages" ∨ path = "/messages.html")
    (hv : st.value = some msgs) :
    (getMessages isDev path st false).outcome = GetOutcome.page msgs.reverse
    ∧ (getMessages isDev path st false).outcome = GetOutcome.page (reverseForShow msgs)
    ∧ (reverseForShow msgs).length = msgs.length
    ∧ (∀ i, ∀ h1 : i < (reverseForShow msgs).length,
        ∀ h2 : msgs.length - 1 - i < msgs.length,
        (reverseForShow msgs).get ⟨i, h1⟩ = msgs.get ⟨msgs.length - 1 - i, h2⟩)
    ∧ getMessages isDev path st false = getMessages isDev path st false := by
  have hshow : (getMessages isDev path st false).outcome
      = GetOutcome.page (reverseForShow msgs) := by
    rcases hpath with h | h | h <;> subst h <;> simp [getMessages, hv]
  refine ⟨?_, hshow, ?_, ?_, rfl⟩
  · rw [hshow, reverseForShow_eq_reverse]
  · rw [reverseForShow_eq_reverse, List.length_reverse]
  · intro i h1 h2
    have hlen : i < msgs.length := by
      simpa [reverseForShow] using h1
    have hidx : msgs.length - i - 1 = msgs.length - 1 - i := by omega
    show (reverseForShow msgs)[i] = msgs[msgs.length - 1 - i]
    simp only [reverseForShow, List.getElem_map, List.getElem_range]
    rw [hidx, List.getD_eq_getElem msgs default (by omega)]

theorem read_renders_reverse_witness :
    (getMessages false "/" ⟨some [⟨"a", "hi"⟩, ⟨"b", "yo"⟩], 7⟩ false).outcome
        = GetOutcome.page [⟨"a", "hi"⟩, (⟨"b", "yo"⟩ : Message)].reverse
    ∧ (reverseForShow [⟨"a", "hi"⟩, ⟨"b", "yo"⟩]).length
        = [⟨"a", "hi"⟩, (⟨"b", "yo"⟩ : Message)].length :=
  ⟨(read_renders_reverse false "/" ⟨some [⟨"a", "hi"⟩, ⟨"b", "yo"⟩], 7⟩
      [⟨"a", "hi"⟩, ⟨"b", "yo"⟩] (Or.inl rfl) rfl).1,
    (read_renders_reverse false "/" ⟨some [⟨"a", "hi"⟩, ⟨"b", "yo"⟩], 7⟩
      [⟨"a", "hi"⟩, ⟨"b", "yo"⟩] (Or.inl rfl) rfl).2.2.1⟩

/-- C10: the dispatcher routes exclusively by HTTP method: GET and HEAD to
the read path, POST to the write path, every other method to a 405 outcome
whose status differs from 400, 500 and 404; and a POST to a path other than
`/messages` yields 404 without touching the cache. -/
theorem dispatch_by_method (decode : List Nat → Option Message) (method : String)
    (isDev : Bool) (path : String) (body : Option (List Nat))
    (st : CacheState) (env : PostEnv) :
    ((method = "HEAD" ∨ method = "GET") →
      handleSnippets decode method isDev path body st env
        = ⟨.fromGet (getMessages isDev path st env.fetchErr).outcome,
            (getMessages isDev path st env.fetchErr).ops, st⟩)
    ∧ (method = "POST" →
      handleSnippets decode method isDev path body st env
        = ⟨.fromPost (postMessages decode path body st env).outcome,
            (postMessages decode path body st env).ops,
            (postMessages decode path body st env).final⟩)
    ∧ (method ≠ "HEAD" → method ≠ "GET" → method ≠ "POST" →
      handleSnippets decode method isDev path body st env = ⟨.methodNotAllowed, [], st⟩
      ∧ outcomeStatus (handleSnippets decode method isDev path body st env).outcome = 405
      ∧ (405 : Nat) ≠ 400 ∧ (405 : Nat) ≠ 500 ∧ (405 : Nat) ≠ 404)
    ∧ (method = "POST" → path ≠ "/messages" →
      (handleSnippets decode method isDev path body st env).outcome
        = Outcome.fromPost PostOutcome.notFound
      ∧ outcomeStatus (handleSnippets decode method isDev path body st env).outcome = 404
      ∧ (handleSnippets decode method isDev path body st env).ops = []
      ∧ (handleSnippets decode method isDev path body st env).final = st) := by
  refine ⟨fun h => ?_, fun h => ?_, fun h1 h2 h3 => ?_, fun h hp => ?_⟩
  · simp [handleSnippets, h]
  · subst h; simp [handleSnippets]
  · have hmain : handleSnippets decode method isDev path body st env
        = ⟨.methodNotAllowed, [], st⟩ := by
      simp [handleSnippets, h1, h2, h3]
    rw [hmain]
    exact ⟨rfl, rfl, by decide, by decide, by decide⟩
  · subst h
    have hmain : handleSnippets decode "POST" isDev path body st env
        = ⟨.fromPost .notFound, [], st⟩ := by
      simp [handleSnippets, postMessages, hp]
    rw [hmain]
    exact ⟨rfl, rfl, rfl, rfl⟩

theorem dispatch_by_method_witness :
    (handleSnippets (fun _ => none) "PUT" false "/messages" none ⟨none, 0⟩
        ⟨false, false, none⟩ = ⟨.methodNotAllowed, [], ⟨none, 0⟩⟩)
    ∧ (handleSnippets (fun _ => none) "POST" false "/other" none ⟨none, 0⟩
        ⟨false, false, none⟩).outcome = Outcome.fromPost PostOutcome.notFound :=
  ⟨((dispatch_by_method (fun _ => none) "PUT" false "/messages" none ⟨none, 0⟩
      ⟨false, false, none⟩).2.2.1 (by decide) (by decide) (by decide)).1,
    ((dispatch_by_method (fun _ => none) "POST" false "/other" none ⟨none, 0⟩
      ⟨false, false, none⟩).2.2.2 rfl (by decide)).1⟩

set_option maxRecDepth 4000 in
/-- C5 as stated fails twice on the code: a payload that is both oversize and
malformed is rejected by the size check (`tooBig`), not with a decode error;
and for a well-formed accepted payload whose cache fetch errors, the append
step is never invoked although the input was not rejected as malformed. -/
theorem decode_rejection_counterexample :
    ((fun _ : List Nat => (none : Option Message)) (List.replicate 257 0) = none)
    ∧ (postMessages (fun _ => none) "/messages" (some (List.replicate 257 0))
        ⟨none, 0⟩ ⟨false, false, none⟩).outcome ≠ PostOutcome.decodeFailed
    ∧ (postMessages (fun _ => none) "/messages" (some (List.replicate 257 0))
        ⟨none, 0⟩ ⟨false, false, none⟩).outcome = PostOutcome.tooBig
    ∧ ((fun _ : List Nat => some (⟨"a", "hi"⟩ : Message)) [] = some ⟨"a", "hi"⟩)
    ∧ ¬ storeAttempted (postMessages (fun _ => some ⟨"a", "hi"⟩) "/messages"
        (some []) ⟨none, 0⟩ ⟨true, false, none⟩).ops
    ∧ (postMessages (fun _ => some ⟨"a", "hi"⟩) "/messages" (some [])
        ⟨none, 0⟩ ⟨true, false, none⟩).outcome ≠ PostOutcome.decodeFailed := by
  have h1 : postMessages (fun _ => none) "/messages" (some (List.replicate 257 0))
      ⟨none, 0⟩ ⟨false, false, none⟩ = ⟨.tooBig, [], ⟨none, 0⟩⟩ := by
    simp [postMessages, maxContentSizeInBytes]
  have h2 : postMessages (fun _ => some ⟨"a", "hi"⟩) "/messages" (some ([] : List Nat))
      ⟨none, 0⟩ ⟨true, false, none⟩ = ⟨.fetchInternalError, [.fetch], ⟨none, 0⟩⟩ := by
    simp [postMessages, maxContentSizeInBytes]
  rw [h1, h2]
  exact ⟨rfl, by decide, rfl, rfl, by decide, by decide⟩

/-- C5 amended: among write payloads within the size limit, the decode
rejection branch is taken exactly when decoding fails; such rejected inputs
cause no cache interaction and no append, the decoded message of an accepted
input carries both fields as text by construction, and (beyond the claim as
written) the append step is reached exactly when the cache fetch does not
error. -/
theorem decode_rejection_exact (decode : List Nat → Option Message) (b : List Nat)
    (st : CacheState) (env : PostEnv) (hb : b.length ≤ maxContentSizeInBytes) :
    ((postMessages decode "/messages" (some b) st env).outcome
        = PostOutcome.decodeFailed ↔ decode b = none)
    ∧ (decode b = none →
        (postMessages decode "/messages" (some b) st env).ops = []
        ∧ (postMessages decode "/messages" (some b) st env).final = st)
    ∧ (∀ m, decode b = some m →
        (storeAttempted (postMessages decode "/messages" (some b) st env).ops
          ↔ env.fetchErr = false)) := by
  rcases env with ⟨fe, se, iv⟩
  cases hdec : decode b with
  | none =>
    have hr : postMessages decode "/messages" (some b) st ⟨fe, se, iv⟩
        = ⟨.decodeFailed, [], st⟩ := by
      simp [postMessages, hdec, Nat.not_lt.mpr hb]
    rw [hr]
    exact ⟨by simp, fun _ => ⟨rfl, rfl⟩, fun m hm => nomatch hm⟩
  | some m0 =>
    cases fe <;> cases se <;> cases hv : st.value <;> cases iv <;>
      simp [postMessages, hdec, hv, Nat.not_lt.mpr hb, applyInterfere, setValue,
        storeAttempted, Nat.succ_ne_self]

theorem decode_rejection_exact_witness :
    ((postMessages (fun _ => none) "/messages" (some ([] : List Nat)) ⟨none, 0⟩
        ⟨false, false, none⟩).outcome = PostOutcome.decodeFailed)
    ∧ (postMessages (fun _ => none) "/messages" (some ([] : List Nat)) ⟨none, 0⟩
        ⟨false, false, none⟩).ops = [] :=
  ⟨(decode_rejection_exact (fun _ => none) [] ⟨none, 0⟩ ⟨false, false, none⟩
      (by decide)).1.mpr rfl,
    ((decode_rejection_exact (fun _ => none) [] ⟨none, 0⟩ ⟨false, false, none⟩
      (by decide)).2.1 rfl).1⟩

/-- C7: when a concurrent writer lands between fetch and store on the hit
path, the CAS fails and is surfaced directly: the branch reports HTTP 400
(the same status as the BadInput branches), exactly one fetch and one CAS
attempt are issued (no retry, no re-fetch), the final cache state is the
interferer's snapshot untouched by the loser, and the losing message is
absent from it whenever the interferer's snapshot does not contain it. -/
theorem cas_conflict_surfaced (decode : List Nat → Option Message) (b : List Nat)
    (m : Message) (st : CacheState) (msgs w : List Message)
    (hb : b.length ≤ maxContentSizeInBytes) (hd : decode b = some m)
    (hv : st.value = some msgs) :
    (postMessages decode "/messages" (some b) st ⟨false, false, some w⟩).outcome
        = PostOutcome.storeFailed
    ∧ postStatus (postMessages decode "/messages" (some b) st
        ⟨false, false, some w⟩).outcome = 400
    ∧ postStatus (postMessages decode "/messages" (some b) st
        ⟨false, false, some w⟩).outcome = postStatus PostOutcome.decodeFailed
    ∧ (postMessages decode "/messages" (some b) st ⟨false, false, some w⟩).ops
        = [.fetch, .casStore (appendTruncate msgs m maxMessageNum)]
    ∧ (postMessages decode "/messages" (some b) st ⟨false, false, some w⟩).final
        = setValue st w
    ∧ (m ∉ w → m ∉ logOf (postMessages decode "/messages" (some b) st
        ⟨false, false, some w⟩).final.value) := by
  have hr : postMessages decode "/messages" (some b) st ⟨false, false, some w⟩
      = ⟨.storeFailed, [.fetch, .casStore (appendTruncate msgs m maxMessageNum)],
          setValue st w⟩ := by
    simp [postMessages, hd, hv, Nat.not_lt.mpr hb, applyInterfere, setValue,
      Nat.succ_ne_self]
  rw [hr]
  exact ⟨rfl, rfl, rfl, rfl, rfl, fun hm => hm⟩

theorem cas_conflict_surfaced_witness :
    (postMessages (fun _ => some ⟨"m", "z"⟩) "/messages" (some ([] : List Nat))
        ⟨some [⟨"x", "y"⟩], 0⟩ ⟨false, false, some [⟨"w", "v"⟩]⟩).outcome
        = PostOutcome.storeFailed
    ∧ (⟨"m", "z"⟩ : Message) ∉ logOf (postMessages (fun _ => some ⟨"m", "z"⟩)
        "/messages" (some ([] : List Nat)) ⟨some [⟨"x", "y"⟩], 0⟩
        ⟨false, false, some [⟨"w", "v"⟩]⟩).final.value :=
  ⟨(cas_conflict_surfaced (fun _ => some ⟨"m", "z"⟩) [] ⟨"m", "z"⟩
      ⟨some [⟨"x", "y"⟩], 0⟩ [⟨"x", "y"⟩] [⟨"w", "v"⟩] (by decide) rfl rfl).1,
    (cas_conflict_surfaced (fun _ => some ⟨"m", "z"⟩) [] ⟨"m", "z"⟩
      ⟨some [⟨"x", "y"⟩], 0⟩ [⟨"x", "y"⟩] [⟨"w", "v"⟩] (by decide) rfl rfl).2.2.2.2.2
      (by decide)⟩

/-- C8 as stated fails on the code: a hit-path store failure that is neither
a miss nor a version conflict (no concurrent writer here) is reported with
HTTP 400, the BadInput status, not as a 500 internal failure. -/
theorem hit_store_error_counterexample :
    (postMessages (fun _ => some ⟨"a", "hi"⟩) "/messages" (some ([] : List Nat))
        ⟨some [⟨"x", "y"⟩], 0⟩ ⟨false, true, none⟩).outcome = PostOutcome.storeFailed
    ∧ postStatus (postMessages (fun _ => some ⟨"a", "hi"⟩) "/messages"
        (some ([] : List Nat)) ⟨some [⟨"x", "y"⟩], 0⟩ ⟨false, true, none⟩).outcome
        = 400
    ∧ postStatus (postMessages (fun _ => some ⟨"a", "hi"⟩) "/messages"
        (some ([] : List Nat)) ⟨some [⟨"x", "y"⟩], 0⟩ ⟨false, true, none⟩).outcome
        ≠ 500 := by
  have hr : postMessages (fun _ => some ⟨"a", "hi"⟩) "/messages"
      (some ([] : List Nat)) ⟨some [⟨"x", "y"⟩], 0⟩ ⟨false, true, none⟩
      = ⟨.storeFailed,
          [.fetch, .casStore (appendTruncate [⟨"x", "y"⟩] ⟨"a", "hi"⟩ maxMessageNum)],
          ⟨some [⟨"x", "y"⟩], 0⟩⟩ := by
    simp [postMessages, applyInterfere, maxContentSizeInBytes]
  rw [hr]
  exact ⟨rfl, rfl, by decide⟩

/-- C8 amended: a fetch failure other than a miss and a store failure on the
miss path are reported as 500 internal failures with no retry (one fetch, at
most one store); a store failure on the hit path, conflict or not, is
reported with HTTP 400 — in each case the single attempt is surfaced
directly. -/
theorem cache_error_classification (decode : List Nat → Option Message)
    (b : List Nat) (m : Message) (st : CacheState) (env : PostEnv)
    (hb : b.length ≤ maxContentSizeInBytes) (hd : decode b = some m) :
    (env.fetchErr = true →
      (postMessages decode "/messages" (some b) st env).outcome
        = PostOutcome.fetchInternalError
      ∧ postStatus (postMessages decode "/messages" (some b) st env).outcome = 500
      ∧ (postMessages decode "/messages" (some b) st env).ops = [.fetch]
      ∧ (postMessages decode "/messages" (some b) st env).final = st)
    ∧ (env.fetchErr = false → env.storeErr = true → st.value = none →
      (postMessages decode "/messages" (some b) st env).outcome
        = PostOutcome.setInternalError
      ∧ postStatus (postMessages decode "/messages" (some b) st env).outcome = 500
      ∧ (postMessages decode "/messages" (some b) st env).ops
        = [.fetch, .setStore [m]])
    ∧ (∀ msgs, env.fetchErr = false → env.storeErr = true → st.value = some msgs →
      (postMessages decode "/messages" (some b) st env).outcome
        = PostOutcome.storeFailed
      ∧ postStatus (postMessages decode "/messages" (some b) st env).outcome = 400
      ∧ (postMessages decode "/messages" (some b) st env).ops
        = [.fetch, .casStore (appendTruncate msgs m maxMessageNum)]) := by
  rcases env with ⟨fe, se, iv⟩
  refine ⟨fun hfe => ?_, fun hfe hse hv => ?_, fun msgs hfe hse hv => ?_⟩
  · subst hfe
    have hr : postMessages decode "/messages" (some b) st ⟨true, se, iv⟩
        = ⟨.fetchInternalError, [.fetch], st⟩ := by
      simp [postMessages, hd, Nat.not_lt.mpr hb]
    rw [hr]
    exact ⟨rfl, rfl, rfl, rfl⟩
  · subst hfe; subst hse
    have hr : postMessages decode "/messages" (some b) st ⟨false, true, iv⟩
        = ⟨.setInternalError, [.fetch, .setStore [m]], applyInterfere st iv⟩ := by
      simp [postMessages, hd, hv, Nat.not_lt.mpr hb]
    rw [hr]
    exact ⟨rfl, rfl, rfl⟩
  · subst hfe; subst hse
    have hr : postMessages decode "/messages" (some b) st ⟨false, true, iv⟩
        = ⟨.storeFailed, [.fetch, .casStore (appendTruncate msgs m maxMessageNum)],
            applyInterfere st iv⟩ := by
      simp [postMessages, hd, hv, Nat.not_lt.mpr hb]
    rw [hr]
    exact ⟨rfl, rfl, rfl⟩

theorem cache_error_classification_witness :
    ((postMessages (fun _ => some ⟨"a", "hi"⟩) "/messages" (some ([] : List Nat))
        ⟨none, 3⟩ ⟨true, false, none⟩).outcome = PostOutcome.fetchInternalError)
    ∧ (postMessages (fun _ => some ⟨"a", "hi"⟩) "/messages" (some ([] : List Nat))
        ⟨none, 3⟩ ⟨false, true, none⟩).outcome = PostOutcome.setInternalError :=
  ⟨((cache_error_classification (fun _ => some ⟨"a", "hi"⟩) [] ⟨"a", "hi"⟩
      ⟨none, 3⟩ ⟨true, false, none⟩ (by decide) rfl).1 rfl).1,
    ((cache_error_classification (fun _ => some ⟨"a", "hi"⟩) [] ⟨"a", "hi"⟩
      ⟨none, 3⟩ ⟨false, true, none⟩ (by decide) rfl).2.1 rfl rfl rfl).1⟩

end ChatServer
